import Mathlib

/-!
Verification of the TimeTable-Manager repository: a shallow embedding in
Lean 4 of the data model and the operations of the hybrid OCR + LLM
timetable extraction pipeline (src/lib/hybrid-processor.ts, both file
variants), the grid sorting helpers (src/lib/utils.ts) and the upload and
process API routes (src/app/api/upload/route.ts, src/app/api/process/route.ts),
together with theorems settling the frozen claims about them.

External collaborators that are out of the repository (the JSON.parse
builtin, the Date constructor used for time parsing, the file system and
the ORM) are modelled as explicit function parameters or as
always-succeeding state updates, exactly at the call boundary the source
uses them.
-/

namespace TTM

/-! ### JavaScript string and number helpers

These model the exact JavaScript semantics the source relies on:
truthiness of strings (the empty string is falsy) and of numbers (zero is
falsy) in `a || b` chains, `String.prototype.includes`, and 32-bit signed
coercion used by the `<<` operator. -/

/-- JS `a || b` for optional string fields: `undefined` and `""` are falsy. -/

def jsGet (o : Option String) (alt : String) : String :=
  match o with
  | some s => if s = "" then alt else s
  | none => alt

/-- JS `a || b` for optional numeric fields: `undefined` and `0` are falsy. -/

def jsOrInt (o : Option Int) (alt : Int) : Int :=
  match o with
  | some d => if d = 0 then alt else d
  | none => alt

/-- Does the list of characters start with the given pattern? -/

def listStartsWith : List Char → List Char → Bool
  | _, [] => true
  | [], _ :: _ => false
  | c :: cs, p :: ps => c = p && listStartsWith cs ps

/-- JS `haystack.includes(needle)`: substring containment. -/

def listContains : List Char → List Char → Bool
  | [], p => p.isEmpty
  | c :: cs, p => listStartsWith (c :: cs) p || listContains cs p

/-- JS `s.includes(pat)` on strings. -/

def jsIncludes (s pat : String) : Bool :=
  listContains s.toList pat.toList

/-- JS `s.startsWith(pre)` on strings. -/

def jsStartsWith (s pre : String) : Bool :=
  listStartsWith s.toList pre.toList

/-- Lexicographic (code-point) comparison of character lists; models the
result of `a.localeCompare(b) <= 0` for the ASCII day/time strings the
application sorts. -/

def lexLe : List Char → List Char → Bool
  | [], _ => true
  | _ :: _, [] => false
  | a :: as, b :: bs => if a < b then true else if b < a then false else lexLe as bs

/-- JS `ToInt32`: wrap an integer to the signed 32-bit range. -/

def toInt32 (x : Int) : Int :=
  (x + 2 ^ 31) % 2 ^ 32 - 2 ^ 31

/-! ### Data model

`TimeBlock` is the canonical timeblock record of the hybrid processor
(second variant interface, which extends the inline type of the first variant
with the optional id and enrichment fields). `ParsedTimeblock` is the
shape `JSON.parse` output is read at in `parseJSONResponse`; the nested
`blocks` / `schedule` / `activities` arrays hold the same scalar fields,
and the source never reads a nesting below one level, so the element type
of those arrays is the flat `ParsedLeaf`. -/

structure TimeBlock where
  id : Option String := none
  title : String
  description : Option String := none
  startTime : String
  endTime : String
  dayOfWeek : String
  duration : Option Int := none
  color : Option String := none
  keywords : Option (List String) := none
  subject : Option String := none
  activityType : Option String := none
deriving DecidableEq, Repr

structure ExtractedData where
  timeblocks : List TimeBlock
deriving DecidableEq, Repr

structure ParsedLeaf where
  title : Option String := none
  subject : Option String := none
  activity : Option String := none
  description : Option String := none
  startTime : Option String := none
  endTime : Option String := none
  time : Option String := none
  dayOfWeek : Option String := none
  day : Option String := none
  duration : Option Int := none
  color : Option String := none
deriving DecidableEq, Repr

structure ParsedTimeblock extends ParsedLeaf where
  blocks : Option (List ParsedLeaf) := none
  schedule : Option (List ParsedLeaf) := none
  activities : Option (List ParsedLeaf) := none
deriving DecidableEq, Repr

structure ParsedResponse where
  timeblocks : Option (List ParsedTimeblock) := none
deriving DecidableEq, Repr

/-! ### src/lib/utils.ts : day ordering and the grid sort -/

/-- The weekday sequence of getDayOrder in src/lib/utils.ts. -/

def days7 : List String :=
  ["Monday", "Tuesday", "Wednesday", "Thursday", "Friday", "Saturday", "Sunday"]

/-- getDayOrder: `days.indexOf(day)`, -1 when the day is not listed. -/

def getDayOrder (day : String) : Int :=
  let i := days7.indexOf day
  if i = days7.length then -1 else (i : Int)

/-- The comparator of sortTimeblocksByDayAndTime, as the relation
`compare(a,b) <= 0`: day order strictly smaller, or equal day order and
startTime not after (localeCompare). -/

def tbLe (a b : TimeBlock) : Bool :=
  decide (getDayOrder a.dayOfWeek < getDayOrder b.dayOfWeek) ||
    (decide (getDayOrder a.dayOfWeek = getDayOrder b.dayOfWeek) &&
      lexLe a.startTime.toList b.startTime.toList)

/-- sortTimeblocksByDayAndTime: JS `Array.prototype.sort` is a stable sort,
so with the consistent comparator above it computes the stable merge sort
by `tbLe`. -/

def sortTimeblocksByDayAndTime (timeblocks : List TimeBlock) : List TimeBlock :=
  timeblocks.mergeSort tbLe

/-! Totality and transitivity of the comparator relation. -/

/-! ### groupWordsByLines (hybrid-processor.ts, identical in both variants) -/

structure BBox where
  x0 : Int
  y0 : Int
  x1 : Int
  y1 : Int
deriving DecidableEq, Repr

structure OCRWord where
  text : String
  confidence : Int
  bbox : BBox
deriving DecidableEq, Repr

/-- Comparator of the word sort `(a, b) => a.bbox.y0 - b.bbox.y0` as the
relation `compare(a,b) <= 0`. -/

def wordLeY (a b : OCRWord) : Bool :=
  decide (a.bbox.y0 ≤ b.bbox.y0)

/-- The forEach loop of groupWordsByLines: walks the y-sorted words,
starting a new line when the y0 of a word differs from the anchor of the
current line by more than the 20-pixel threshold. -/

def groupGo : List OCRWord → List String → Int → List (List String) →
    List (List String)
  | [], currentLine, _, lines =>
    if currentLine.isEmpty then lines else lines ++ [currentLine]
  | w :: rest, currentLine, currentY, lines =>
    if (w.bbox.y0 - currentY).natAbs > 20 then
      if currentLine.isEmpty then
        groupGo rest (currentLine ++ [w.text]) w.bbox.y0 lines
      else
        groupGo rest [w.text] w.bbox.y0 (lines ++ [currentLine])
    else
      groupGo rest (currentLine ++ [w.text]) currentY lines

/-- groupWordsByLines: returns [] for empty input; otherwise sorts the
words by y0 (stable JS sort = stable merge sort) and groups them. -/

def groupWordsByLines (words : List OCRWord) : List (List String) :=
  match words.mergeSort wordLeY with
  | [] => []
  | w0 :: rest => groupGo (w0 :: rest) [] w0.bbox.y0 []

/-! ### calculateDuration (hybrid-processor.ts, identical in both variants)

The source builds two `Date` objects from the day-anchored strings
`2000-01-01 <normalized time>` and rounds the millisecond difference to
minutes. The Date constructor is a host builtin outside the repository:
it is passed in as `pt : String → Option Int`, mapping the normalized
time string to `getTime()` milliseconds (`none` models an Invalid Date /
NaN timestamp). -/

/-- The inner normalizeTime helper: trim, insert a colon into a 4-character
colon-free string after its first character, and cut the first
(case-insensitively matched) AM/PM marker with its leading whitespace when
the string contains an uppercase AM or PM. -/

def stripWsRunBefore (cs : List Char) (i : Nat) : Nat :=
  i - ((cs.take i).reverse.takeWhile Char.isWhitespace).length

/-- Is a case-insensitive am/pm marker located at index i? -/

def isAmPmAt (cs : List Char) (i : Nat) : Bool :=
  match cs.drop i with
  | a :: m :: _ => (a.toLower = 'a' || a.toLower = 'p') && m.toLower = 'm'
  | _ => false

/-- Index of the leftmost regex match of the AM/PM pattern. -/

def firstAmPmIdx (cs : List Char) : Option Nat :=
  (List.range cs.length).find? (isAmPmAt cs)

/-- JS `s.replace(/\s*(AM|PM)/i, "")`: remove the leftmost
case-insensitive AM/PM together with the whitespace run just before it. -/

def removeFirstAmPm (s : String) : String :=
  let cs := s.toList
  match firstAmPmIdx cs with
  | none => s
  | some i => ((cs.take (stripWsRunBefore cs i)) ++ cs.drop (i + 2)).asString

/-- JS `s.trim()`, written over character lists so that it evaluates
inside the kernel. -/

def jsTrim (s : String) : String :=
  (((s.toList.dropWhile Char.isWhitespace).reverse.dropWhile
    Char.isWhitespace).reverse).asString

def normalizeTime (time : String) : String :=
  let n := jsTrim time
  let n := if n.toList.length = 4 && !(n.toList.contains ':') then
    ((n.toList.take 1) ++ ':' :: n.toList.drop 1).asString else n
  if jsIncludes n "AM" || jsIncludes n "PM" then removeFirstAmPm n else n

/-- JS `Math.round(x / 60000)` for an integer millisecond difference x:
floor(x / 60000 + 1/2), via Euclidean division by the positive 60000. -/

def jsRoundToMinutes (x : Int) : Int :=
  (x + 30000) / 60000

/-- calculateDuration: difference of the two parsed timestamps rounded to
minutes when positive, 60 otherwise (including unparseable input, where
the NaN comparison makes `duration > 0` false). -/

def calculateDuration (pt : String → Option Int) (startTime endTime : String) : Int :=
  match pt (normalizeTime startTime), pt (normalizeTime endTime) with
  | some s, some e =>
    let duration := jsRoundToMinutes (e - s)
    if duration > 0 then duration else 60
  | _, _ => 60

/-! ### getDefaultColor (hybrid-processor.ts, identical in both variants) -/

/-- JS `s.toLowerCase()` over the ASCII range the titles use. -/

def toLowerStr (s : String) : String :=
  (s.toList.map Char.toLower).asString

/-- The subject-to-color map, in object-literal insertion order. -/

def subjectColors : List (String × String) :=
  [("maths", "#3B82F6"), ("math", "#3B82F6"), ("mathematics", "#3B82F6"),
   ("english", "#10B981"), ("language", "#10B981"), ("literature", "#10B981"),
   ("science", "#F59E0B"), ("physics", "#F59E0B"), ("chemistry", "#F59E0B"),
   ("biology", "#F59E0B"),
   ("history", "#8B5CF6"), ("social", "#8B5CF6"), ("geography", "#8B5CF6"),
   ("art", "#EC4899"), ("drawing", "#EC4899"), ("creative", "#EC4899"),
   ("music", "#06B6D4"), ("singing", "#06B6D4"), ("instrument", "#06B6D4"),
   ("pe", "#84CC16"), ("physical", "#84CC16"), ("sport", "#84CC16"),
   ("gym", "#84CC16"),
   ("computing", "#6366F1"), ("computer", "#6366F1"), ("technology", "#6366F1"),
   ("it", "#6366F1"),
   ("re", "#F97316"), ("religious", "#F97316"), ("religion", "#F97316"),
   ("phse", "#10B981"), ("pshe", "#10B981"), ("personal", "#10B981"),
   ("rwi", "#EF4444"), ("reading", "#EF4444"), ("writing", "#EF4444"),
   ("assembly", "#FFD700"), ("celebration", "#FFD700"), ("in class", "#FFD700"),
   ("break", "#A0AEC0"), ("morning recess", "#A0AEC0"),
   ("snack time", "#A0AEC0"), ("outside play", "#A0AEC0"),
   ("lunch", "#4A5568"), ("lunch break", "#4A5568"),
   ("handwriting", "#CBD5E0"),
   ("storytime", "#718096"), ("story time", "#718096"),
   ("end of day story", "#718096"),
   ("catch up", "#ECC94B"),
   ("registration", "#ED8936"), ("early morning work", "#ED8936"),
   ("students are allowed inside", "#ED8936"), ("morning work", "#ED8936"),
   ("teacher", "#9F7AEA"), ("class", "#9F7AEA"), ("term", "#9F7AEA"),
   ("school", "#9F7AEA")]

/-- The hash-fallback color palette. -/

def hashColors : List String :=
  ["#3B82F6", "#EF4444", "#10B981", "#F59E0B", "#8B5CF6",
   "#06B6D4", "#84CC16", "#F97316", "#EC4899", "#6366F1"]

/-- The JS hash loop `hash = charCode + ((hash << 5) - hash)` with 32-bit
signed shift semantics. -/

def titleHash : List Char → Int → Int
  | [], h => h
  | c :: cs, h => titleHash cs ((c.toNat : Int) + (toInt32 (h * 32) - h))

def getDefaultColor (title : String) : String :=
  let lowerTitle := toLowerStr title
  match subjectColors.find? (fun p => jsIncludes lowerTitle p.1) with
  | some p => p.2
  | none => hashColors.getD ((titleHash title.toList 0).natAbs % 10) ""

/-! ### Hardcoded fallback schedules -/

/-- getFallbackData of the first hybrid-processor variant. -/

def getFallbackData_v1 : ExtractedData :=
  ⟨[{ title := "Maths", description := some "Mathematics lesson",
      startTime := "09:00", endTime := "10:00", dayOfWeek := "Monday",
      duration := some 60, color := some "#F59E0B" },
    { title := "English", description := some "English language lesson",
      startTime := "10:15", endTime := "11:15", dayOfWeek := "Monday",
      duration := some 60, color := some "#8B5CF6" },
    { title := "Science", description := some "Science lesson",
      startTime := "13:00", endTime := "14:00", dayOfWeek := "Monday",
      duration := some 60, color := some "#06B6D4" },
    { title := "Art", description := some "Art and Design",
      startTime := "14:00", endTime := "15:00", dayOfWeek := "Monday",
      duration := some 60, color := some "#EC4899" }]⟩

/-- getFallbackData of the second hybrid-processor variant. -/

def getFallbackData_v2 : ExtractedData :=
  ⟨[{ title := "Morning Registration",
      description := some "Daily routine - extracted from uploaded file",
      startTime := "08:35", endTime := "09:00", dayOfWeek := "Monday",
      duration := some 25, color := some "#3B82F6" },
    { title := "Maths", description := some "Mathematics lesson",
      startTime := "09:00", endTime := "10:00", dayOfWeek := "Monday",
      duration := some 60, color := some "#F59E0B" },
    { title := "Break", description := some "Morning break",
      startTime := "10:00", endTime := "10:15", dayOfWeek := "Monday",
      duration := some 15, color := some "#10B981" },
    { title := "English", description := some "English language lesson",
      startTime := "10:15", endTime := "11:15", dayOfWeek := "Monday",
      duration := some 60, color := some "#8B5CF6" },
    { title := "Lunch", description := some "Lunch break",
      startTime := "12:00", endTime := "13:00", dayOfWeek := "Monday",
      duration := some 60, color := some "#EF4444" },
    { title := "Science", description := some "Science lesson",
      startTime := "13:00", endTime := "14:00", dayOfWeek := "Monday",
      duration := some 60, color := some "#06B6D4" },
    { title := "Story Time", description := some "End of day story",
      startTime := "15:00", endTime := "15:15", dayOfWeek := "Monday",
      duration := some 15, color := some "#EC4899" }]⟩

/-- The inline fallback of extractTimetableWithAI in the standalone
timetable processor file. -/

def getFallbackData_api : ExtractedData :=
  ⟨[{ title := "Sample Class", description := some "Extracted from uploaded file",
      startTime := "09:00", endTime := "10:00", dayOfWeek := "Monday",
      duration := some 60, color := some "#3B82F6" }]⟩

/-! ### Standard blocks appended by parseJSONResponse -/

def days5 : List String :=
  ["Monday", "Tuesday", "Wednesday", "Thursday", "Friday"]

def registrationBlock (day : String) : TimeBlock :=
  { title := "Registration and Early Morning Work",
    description := some "Daily registration and morning activities",
    startTime := "08:35", endTime := "08:50", dayOfWeek := day,
    duration := some 15, color := some "#ED8936" }

def breakBlock (day : String) : TimeBlock :=
  { title := "Break", description := some "Morning break time",
    startTime := "10:00", endTime := "10:15", dayOfWeek := day,
    duration := some 15, color := some "#A0AEC0" }

def lunchBlock (day : String) : TimeBlock :=
  { title := "Lunch", description := some "Lunch break",
    startTime := "12:00", endTime := "13:00", dayOfWeek := day,
    duration := some 60, color := some "#4A5568" }

def storyTimeBlock (day : String) : TimeBlock :=
  { title := "Story Time", description := some "End of day story session",
    startTime := "15:00", endTime := "15:15", dayOfWeek := day,
    duration := some 15, color := some "#718096" }

def assemblyBlock (day : String) : TimeBlock :=
  { title := "Assembly", description := some "School assembly",
    startTime := "09:00", endTime := "09:15", dayOfWeek := day,
    duration := some 15, color := some "#FFD700" }

def handwritingBlock (day : String) : TimeBlock :=
  { title := "Handwriting", description := some "Handwriting practice",
    startTime := "14:30", endTime := "15:00", dayOfWeek := day,
    duration := some 30, color := some "#CBD5E0" }

def mathsMeetingBlock : TimeBlock :=
  { title := "Maths Meeting", description := some "Maths meeting and review",
    startTime := "10:15", endTime := "10:30", dayOfWeek := "Friday",
    duration := some 15, color := some "#3B82F6" }

/-- generateStandardBlocks (second variant): the full 26-entry standard
block list, unconditionally. -/

def generateStandardBlocks : List TimeBlock :=
  days5.map registrationBlock ++ days5.map breakBlock ++ days5.map lunchBlock ++
    days5.map storyTimeBlock ++
    ["Monday", "Wednesday", "Friday"].map assemblyBlock ++
    ["Tuesday", "Thursday"].map handwritingBlock ++ [mathsMeetingBlock]

/-- The title-overlap test of generateConditionalStandardBlocks. -/

def shouldAddBlock (existingTitles : List String) (blockTitle : String) : Bool :=
  !(existingTitles.any fun title =>
    jsIncludes title (toLowerStr blockTitle) || jsIncludes (toLowerStr blockTitle) title)

/-- generateConditionalStandardBlocks (first variant): only the standard
blocks whose titles do not overlap an existing title. -/

def generateConditionalStandardBlocks (existingBlocks : List TimeBlock) : List TimeBlock :=
  let existingTitles := existingBlocks.map fun b => toLowerStr b.title
  let sab := shouldAddBlock existingTitles
  (if sab "Registration" || sab "Early Morning" then days5.map registrationBlock else []) ++
    (if sab "Break" || sab "Recess" then days5.map breakBlock else []) ++
    (if sab "Lunch" then days5.map lunchBlock else []) ++
    (if sab "Story Time" || sab "Storytime" then days5.map storyTimeBlock else []) ++
    (if sab "Assembly" then ["Monday", "Wednesday", "Friday"].map assemblyBlock else []) ++
    (if sab "Handwriting" then ["Tuesday", "Thursday"].map handwritingBlock else []) ++
    (if sab "Maths Meeting" || sab "Math Meeting" then [mathsMeetingBlock] else [])

/-! ### The RAG enrichment layer (second variant only) -/

def educationalTerms : List String :=
  ["maths", "mathematics", "english", "literacy", "reading", "writing", "phonics",
   "science", "history", "geography", "art", "music", "pe", "physical", "education",
   "assembly", "break", "lunch", "registration", "story", "handwriting", "rwi",
   "comprehension", "library", "computing", "re", "religious", "phse", "pshe",
   "yoga", "mindfulness", "carpet", "jigsaw", "continuous", "provision", "snack",
   "play", "outside", "indoor", "workshop", "meeting", "con", "consolidation"]

def subjectKeywords : List (String × List String) :=
  [("maths", ["number", "counting", "addition", "subtraction", "multiplication",
    "division", "problem", "solving"]),
   ("english", ["reading", "writing", "phonics", "comprehension", "literacy",
    "story", "word", "spelling"]),
   ("science", ["experiment", "inquiry", "investigation", "observation",
    "hypothesis", "discovery"]),
   ("art", ["creative", "drawing", "painting", "craft", "design", "artistic"]),
   ("music", ["singing", "musical", "instrument", "rhythm", "melody",
    "performance"]),
   ("pe", ["physical", "sport", "exercise", "fitness", "movement", "outdoor",
    "play"]),
   ("assembly", ["gathering", "announcement", "presentation", "celebration",
    "singing"]),
   ("break", ["snack", "outdoor", "play", "social", "rest", "refreshment"]),
   ("lunch", ["meal", "eating", "social", "break", "nutrition"])]

def timeKeywords : List String :=
  ["morning", "afternoon", "early", "late", "start", "end", "beginning", "finish"]

/-- extractKeywords: base terms, subject-triggered terms and time terms
found as substrings of the lowercased title-plus-description, deduplicated
keeping first occurrences (JS Set insertion order). -/

def extractKeywords (title description : String) : List String :=
  let text := toLowerStr (title ++ " " ++ description)
  let base := educationalTerms.filter fun term => jsIncludes text term
  let subj := subjectKeywords.flatMap fun p =>
    if jsIncludes text p.1 then p.2.filter (fun term => jsIncludes text term) else []
  let time := timeKeywords.filter fun term => jsIncludes text term
  (base ++ subj ++ time).eraseDups

def subjectMap : List (String × String) :=
  [("maths", "Mathematics"), ("mathematics", "Mathematics"), ("math", "Mathematics"),
   ("english", "English"), ("literacy", "English"), ("reading", "English"),
   ("writing", "English"), ("phonics", "English"),
   ("science", "Science"), ("history", "History"), ("geography", "Geography"),
   ("art", "Art"), ("music", "Music"),
   ("pe", "Physical Education"), ("physical", "Physical Education"),
   ("assembly", "Assembly"), ("break", "Break"), ("lunch", "Lunch"),
   ("registration", "Administration"),
   ("story", "English"), ("handwriting", "English"), ("rwi", "English"),
   ("comprehension", "English"), ("library", "English"),
   ("computing", "Computing"),
   ("re", "Religious Education"), ("religious", "Religious Education"),
   ("phse", "PSHE"), ("pshe", "PSHE")]

def categorizeSubject (title description : String) : String :=
  let text := toLowerStr (title ++ " " ++ description)
  match subjectMap.find? (fun p => jsIncludes text p.1) with
  | some p => p.2
  | none => "General"

def categorizeActivityType (title description : String) : String :=
  let text := toLowerStr (title ++ " " ++ description)
  if jsIncludes text "lesson" || jsIncludes text "class" ||
      jsIncludes text "instruction" then "Lesson"
  else if jsIncludes text "break" || jsIncludes text "recess" ||
      jsIncludes text "snack" then "Break"
  else if jsIncludes text "lunch" || jsIncludes text "meal" then "Lunch"
  else if jsIncludes text "assembly" || jsIncludes text "gathering" then "Assembly"
  else if jsIncludes text "registration" || jsIncludes text "attendance" then
    "Administration"
  else if jsIncludes text "story" || jsIncludes text "read aloud" then "Story Time"
  else if jsIncludes text "workshop" || jsIncludes text "station" then "Workshop"
  else if jsIncludes text "meeting" || jsIncludes text "discussion" then "Meeting"
  else if jsIncludes text "play" || jsIncludes text "outdoor" ||
      jsIncludes text "physical" then "Physical Activity"
  else "Activity"

/-- The per-block enhancement of getEnhancedTimeblocks: spread the block
and overwrite exactly the keywords, subject and activityType fields. -/

def enhanceBlock (block : TimeBlock) : TimeBlock :=
  { block with
    keywords := some (extractKeywords block.title (jsGet block.description "")),
    subject := some (categorizeSubject block.title (jsGet block.description "")),
    activityType := some (categorizeActivityType block.title (jsGet block.description "")) }

/-- The in-memory knowledge base: a JS Map in insertion order. -/

abbrev KB := List (String × List TimeBlock)

/-- Append a block under a key, creating the key at the end of the map
when absent (JS Map set/get/push semantics). -/

def kbPush (kb : KB) (key : String) (block : TimeBlock) : KB :=
  if kb.any (fun p => p.1 = key) then
    kb.map fun p => if p.1 = key then (p.1, p.2 ++ [block]) else p
  else kb ++ [(key, [block])]

/-- buildKnowledgeBase: index each (enhanced) block under each of its
keywords, its subject and its activity type. -/

def buildKnowledgeBase (kb : KB) (timeblocks : List TimeBlock) : KB :=
  timeblocks.foldl
    (fun kb block =>
      let keywords := extractKeywords block.title (jsGet block.description "")
      let subject := categorizeSubject block.title (jsGet block.description "")
      let activityType := categorizeActivityType block.title (jsGet block.description "")
      let enhancedBlock := { block with
        keywords := some keywords, subject := some subject,
        activityType := some activityType }
      let kb := keywords.foldl (fun kb keyword => kbPush kb keyword enhancedBlock) kb
      let kb := kbPush kb subject enhancedBlock
      kbPush kb activityType enhancedBlock)
    kb

/-- getEnhancedTimeblocks: lazily build the knowledge base when it is
still empty, and return the blocks enhanced one by one. -/

def getEnhancedTimeblocks (kb : KB) (timeblocks : List TimeBlock) : KB × List TimeBlock :=
  let kb := if kb.length = 0 then buildKnowledgeBase kb timeblocks else kb
  (kb, timeblocks.map enhanceBlock)

/-- The dedup identity of a block inside searchKnowledgeBase. -/

def blockIdOf (block : TimeBlock) : String :=
  jsGet block.id (block.title ++ "-" ++ block.startTime ++ "-" ++ block.dayOfWeek)

/-- The relevance test of the final sort of searchKnowledgeBase. -/

def searchExactMatch (queryLower : String) (b : TimeBlock) : Bool :=
  jsIncludes (toLowerStr b.title) queryLower ||
    jsIncludes (toLowerStr (jsGet b.description "")) queryLower

/-- searchKnowledgeBase: two gathering passes (keyword-level match, then
title/description substring match) deduplicated by block id, then the
stable relevance sort (exact matches first) and the limit cut. The
knowledge base itself is returned untouched. -/

def searchKnowledgeBase (kb : KB) (query : String) (limit : Nat) :
    KB × List TimeBlock :=
  let queryLower := toLowerStr query
  let pass1 := kb.foldl
    (fun (acc : List TimeBlock × List String) p =>
      if jsIncludes queryLower p.1 || jsIncludes p.1 queryLower then
        p.2.foldl
          (fun acc block =>
            if acc.2.contains (blockIdOf block) then acc
            else (acc.1 ++ [block], acc.2 ++ [blockIdOf block]))
          acc
      else acc)
    ([], [])
  let pass2 := kb.foldl
    (fun (acc : List TimeBlock × List String) p =>
      p.2.foldl
        (fun acc block =>
          if acc.2.contains (blockIdOf block) then acc
          else if searchExactMatch queryLower block then
            (acc.1 ++ [block], acc.2 ++ [blockIdOf block])
          else acc)
        acc)
    pass1
  let results := pass2.1
  let sorted := results.filter (searchExactMatch queryLower) ++
    results.filter fun b => !(searchExactMatch queryLower b)
  (kb, sorted.take limit)

/-! ### parseJSONResponse (both variants)

JSON.parse is a host builtin outside the repository; it is passed in as
`parse : String → Option ParsedResponse`, the composition of JSON.parse
with the untyped field reads the source performs on its result (`none`
models a thrown SyntaxError). The rest of the function — trimming, fence
stripping, regex extraction of the outermost brace span, the shape check,
the field coercion and the appending of standard blocks — is embedded
from the source. -/

def lbrace : Char := Char.ofNat 123

def rbrace : Char := Char.ofNat 125

def dropLeadingWsList (cs : List Char) : List Char :=
  cs.dropWhile Char.isWhitespace

def dropTrailingWsList (cs : List Char) : List Char :=
  (cs.reverse.dropWhile Char.isWhitespace).reverse

def listEndsWith (cs p : List Char) : Bool :=
  listStartsWith cs.reverse p.reverse

/-- JS `s.replace(/\s*```$/, "")` on a string with no trailing
whitespace. -/

def stripFenceTrailing (cs : List Char) : List Char :=
  if listEndsWith cs "```".toList then dropTrailingWsList (cs.take (cs.length - 3))
  else cs

def firstIdxOf : List Char → Char → Option Nat
  | [], _ => none
  | x :: xs, c => if x = c then some 0 else (firstIdxOf xs c).map (· + 1)

def lastIdxOf (cs : List Char) (c : Char) : Option Nat :=
  (firstIdxOf cs.reverse c).map fun k => cs.length - 1 - k

/-- JS `s.match(/\{[\s\S]*\}/)`: the greedy match runs from the first
opening brace to the last closing brace; when there is no such span the
string is left unchanged. -/

def extractJsonSlice (cs : List Char) : List Char :=
  match firstIdxOf cs lbrace, lastIdxOf cs rbrace with
  | some i, some j => if i < j then (cs.drop i).take (j + 1 - i) else cs
  | _, _ => cs

/-- The cleaning pipeline shared by every parseJSONResponse variant:
trim, strip a leading markdown fence (with its trailing counterpart),
then cut to the outermost brace span. -/

def cleanResponse (response : String) : String :=
  let t := (jsTrim response).toList
  let t := if listStartsWith t "```json".toList then
      stripFenceTrailing (dropLeadingWsList (t.drop 7))
    else if listStartsWith t "```".toList then
      stripFenceTrailing (dropLeadingWsList (t.drop 3))
    else t
  (extractJsonSlice t).asString

/-- JS `"a-b".split("-")` on a single-character separator. -/

def splitOnCharList (sep : Char) : List Char → List (List Char)
  | [] => [[]]
  | c :: cs =>
    let r := splitOnCharList sep cs
    if c = sep then [] :: r
    else match r with
      | [] => [[c]]
      | h :: t => (c :: h) :: t

/-- Destructuring `const [start, end] = time.split("-")` followed by
trimming both parts. -/

def splitTimeRange (t : String) : String × String :=
  let parts := splitOnCharList '-' t.toList
  (jsTrim (parts.headD []).asString, jsTrim ((parts.drop 1).headD []).asString)

/-- The start/end-time override applied when a truthy string-valued
`time` field contains a dash. -/

def leafTimes (startTime0 endTime0 : String) (time : Option String) :
    String × String :=
  match time with
  | some t => if t.toList.contains '-' then splitTimeRange t
    else (startTime0, endTime0)
  | none => (startTime0, endTime0)

/-- Coercion of one nested block (inside blocks/schedule/activities):
title from subject/title/activity with the indexed default, times from
startTime/endTime or a dashed time range, the day inherited from the
outer block. -/

def coerceNested (pt : String → Option Int) (index nestedIndex : Nat)
    (dayOfWeek : String) (nb : ParsedLeaf) : TimeBlock :=
  let nestedTitle := jsGet nb.subject (jsGet nb.title (jsGet nb.activity
    ("Activity " ++ toString (index + 1) ++ "." ++ toString (nestedIndex + 1))))
  let p := leafTimes (jsGet nb.startTime "09:00") (jsGet nb.endTime "10:00") nb.time
  { title := nestedTitle,
    description := some (jsGet nb.description ""),
    startTime := p.1, endTime := p.2, dayOfWeek := dayOfWeek,
    duration := some (jsOrInt nb.duration (calculateDuration pt p.1 p.2)),
    color := some (jsGet nb.color (getDefaultColor nestedTitle)) }

/-- Coercion of one top-level parsed block in the second variant:
blocks/schedule/activities arrays are flattened via coerceNested;
otherwise a single canonical block is produced. -/

def coerceBlock_v2 (pt : String → Option Int) (index : Nat)
    (b : ParsedTimeblock) : List TimeBlock :=
  let title := jsGet b.title (jsGet b.subject (jsGet b.activity
    ("Activity " ++ toString (index + 1))))
  let dayOfWeek := jsGet b.dayOfWeek (jsGet b.day "Monday")
  let p := leafTimes (jsGet b.startTime "09:00") (jsGet b.endTime "10:00") b.time
  if b.blocks.isSome || b.schedule.isSome || b.activities.isSome then
    let nestedArray := (b.blocks.orElse fun _ =>
      b.schedule.orElse fun _ => b.activities).getD []
    nestedArray.enum.map fun q => coerceNested pt index q.1 dayOfWeek q.2
  else
    [{ title := title, description := some (jsGet b.description ""),
       startTime := p.1, endTime := p.2, dayOfWeek := dayOfWeek,
       duration := some (jsOrInt b.duration (calculateDuration pt p.1 p.2)),
       color := some (jsGet b.color (getDefaultColor title)) }]

/-- Coercion of one top-level parsed block in the first variant: as in
the second variant but without the activities nested array. -/

def coerceBlock_v1 (pt : String → Option Int) (index : Nat)
    (b : ParsedTimeblock) : List TimeBlock :=
  let title := jsGet b.title (jsGet b.subject (jsGet b.activity
    ("Activity " ++ toString (index + 1))))
  let dayOfWeek := jsGet b.dayOfWeek (jsGet b.day "Monday")
  let p := leafTimes (jsGet b.startTime "09:00") (jsGet b.endTime "10:00") b.time
  if b.blocks.isSome || b.schedule.isSome then
    let nestedArray := (b.blocks.orElse fun _ => b.schedule).getD []
    nestedArray.enum.map fun q => coerceNested pt index q.1 dayOfWeek q.2
  else
    [{ title := title, description := some (jsGet b.description ""),
       startTime := p.1, endTime := p.2, dayOfWeek := dayOfWeek,
       duration := some (jsOrInt b.duration (calculateDuration pt p.1 p.2)),
       color := some (jsGet b.color (getDefaultColor title)) }]

/-- The map-with-index plus flatten over the parsed timeblocks array. -/

def coerceAll_v1 (pt : String → Option Int) (tbs : List ParsedTimeblock) :
    List TimeBlock :=
  tbs.enum.flatMap fun q => coerceBlock_v1 pt q.1 q.2

def coerceAll_v2 (pt : String → Option Int) (tbs : List ParsedTimeblock) :
    List TimeBlock :=
  tbs.enum.flatMap fun q => coerceBlock_v2 pt q.1 q.2

/-- parseJSONResponse, first variant: bad shape short-circuits to the
fallback schedule before parsing, a parse failure yields the fallback
schedule, a parsed object without a timeblocks array throws, and a good
parse yields the coerced blocks plus the conditional standard blocks. -/

def parseJSONResponse_v1 (parse : String → Option ParsedResponse)
    (pt : String → Option Int) (response : String) : Except Unit ExtractedData :=
  let jsonContent := cleanResponse response
  if !(jsStartsWith jsonContent "\x7b") ||
      !(jsIncludes jsonContent "timeblocks") then
    Except.ok getFallbackData_v1
  else
    match parse jsonContent with
    | none => Except.ok getFallbackData_v1
    | some parsed =>
      match parsed.timeblocks with
      | none => Except.error ()
      | some tbs =>
        let processedTimeblocks := coerceAll_v1 pt tbs
        Except.ok ⟨processedTimeblocks ++
          generateConditionalStandardBlocks processedTimeblocks⟩

/-- parseJSONResponse, second variant: a parse failure yields an empty
timeblock list, a parsed object without a timeblocks array throws, and a
good parse yields the coerced blocks plus the full standard block list,
all RAG-enhanced (threading the knowledge-base state). -/

def parseJSONResponse_v2 (parse : String → Option ParsedResponse)
    (pt : String → Option Int) (kb : KB) (response : String) :
    KB × Except Unit ExtractedData :=
  let jsonContent := cleanResponse response
  match parse jsonContent with
  | none => (kb, Except.ok ⟨[]⟩)
  | some parsed =>
    match parsed.timeblocks with
    | none => (kb, Except.error ())
    | some tbs =>
      let processedTimeblocks := coerceAll_v2 pt tbs
      let allTimeblocks := processedTimeblocks ++ generateStandardBlocks
      let r := getEnhancedTimeblocks kb allTimeblocks
      (r.1, Except.ok ⟨r.2⟩)

/-- A Date-parse stub for concrete evaluations (never consulted on the
paths exercised). -/

def ptNone : String → Option Int := fun _ => none

/-- A JSON.parse stand-in failing on every input, as the real JSON.parse
does on the malformed document below. -/

def parseFailing : String → Option ParsedResponse := fun _ => none

/-- A malformed LLM response: JSON.parse throws on it, yet it passes the
brace and timeblocks pre-checks of the first variant. -/

def malformedResponse : String := "\x7b \"timeblocks\": \x7d"

/-- A well-formed response carrying an empty timeblocks array. -/

def emptyTimeblocksResponse : String := "\x7b\"timeblocks\": []\x7d"

/-- A JSON.parse stand-in succeeding exactly on the cleaned form of the
empty-timeblocks response, as the real JSON.parse does. -/

def parseEmptyOk : String → Option ParsedResponse :=
  fun s => if s = emptyTimeblocksResponse then some ⟨some []⟩ else none

/-! ### extractTimetableWithLLM / extractTimetableWithAI: the provider loop

Each provider call is an awaited network request: its outcome is modelled
as `Option ExtractedData` (`none` = the try-block threw anywhere, `some r`
= the provider call returned r). `tryProviders` is the for-loop: it walks
the provider list in order, returns the first success, and counts how
many providers were invoked — a later provider is invoked only when every
earlier one failed. -/

def tryProviders (fallback : ExtractedData) :
    List (Option ExtractedData) → ExtractedData × Nat
  | [] => (fallback, 0)
  | some r :: _ => (r, 1)
  | none :: rest =>
    let p := tryProviders fallback rest
    (p.1, p.2 + 1)

/-- The provider list of the first hybrid-processor variant, in source
order. -/

def providerNames_v1 : List String := ["OpenAI", "Claude", "Gemini"]

/-- The provider list of the second hybrid-processor variant, in source
order. -/

def providerNames_v2 : List String := ["Claude", "Gemini"]

/-- The provider list of extractTimetableWithAI in the standalone
timetable processor file, in source order. -/

def providerNames_api : List String := ["OpenAI", "Claude", "Gemini"]

def extractTimetableWithLLM_v1 (o1 o2 o3 : Option ExtractedData) :
    ExtractedData × Nat :=
  tryProviders getFallbackData_v1 [o1, o2, o3]

def extractTimetableWithLLM_v2 (o1 o2 : Option ExtractedData) :
    ExtractedData × Nat :=
  tryProviders getFallbackData_v2 [o1, o2]

def extractTimetableWithAI (o1 o2 o3 : Option ExtractedData) :
    ExtractedData × Nat :=
  tryProviders getFallbackData_api [o1, o2, o3]

/-! ### POST /api/upload (src/app/api/upload/route.ts)

The file system and the ORM are out-of-scope collaborators: writing the
file and creating the record are modelled as the returned effects. The
route logic — the missing-file check, the MIME whitelist, the filename
construction from the timestamp, the random suffix and the original
extension, and the record fields — is embedded from the source. -/

structure FileData where
  name : String
  mimeType : String
  size : Int
deriving DecidableEq, Repr

/-- The MIME whitelist of the upload route. -/

def allowedTypes : List String :=
  ["image/jpeg", "image/png", "image/jpg", "application/pdf",
   "application/vnd.openxmlformats-officedocument.wordprocessingml.document"]

structure UploadedFileRec where
  filename : String
  originalName : String
  mimeType : String
  size : Int
  path : String
  processed : Bool
deriving DecidableEq, Repr

structure UploadResponse where
  status : Nat
  error : Option String := none
  success : Bool := false
deriving DecidableEq, Repr

structure UploadEffects where
  wroteFile : Option String := none
  createdRecord : Option UploadedFileRec := none
deriving DecidableEq, Repr

/-- JS `file.name.split(".").pop()`. -/

def fileExtensionOf (name : String) : String :=
  ((splitOnCharList '.' name.toList).getLastD []).asString

def POST_upload (timestamp : Int) (rand : String) (file : Option FileData) :
    UploadResponse × UploadEffects :=
  match file with
  | none => ({ status := 400, error := some "No file uploaded" }, {})
  | some f =>
    if f.mimeType ∈ allowedTypes then
      let filename := toString timestamp ++ "-" ++ rand ++ "." ++
        fileExtensionOf f.name
      let filepath := "uploads/" ++ filename
      let record : UploadedFileRec :=
        { filename := filename, originalName := f.name, mimeType := f.mimeType,
          size := f.size, path := filepath, processed := false }
      ({ status := 200, success := true },
       { wroteFile := some filepath, createdRecord := some record })
    else
      ({ status := 400,
         error := some "Invalid file type. Please upload an image, PDF, or Word document." },
       {})

/-! ### POST /api/process (src/app/api/process/route.ts)

The ORM is modelled as an in-memory database record threaded through the
route; `extract` stands for the processTimetableFile call (an Except
models a thrown processing error, which the catch of the route turns into a
500 before any write has happened). Fresh row ids come from a counter in
the database state. -/

structure Teacher where
  id : String
  name : String
  email : String
deriving DecidableEq, Repr

structure TimetableRec where
  id : String
  title : String
  description : String
  teacherId : String
deriving DecidableEq, Repr

structure TimeBlockRow where
  title : String
  description : Option String
  startTime : String
  endTime : String
  dayOfWeek : String
  duration : Option Int
  color : Option String
  timetableId : String
deriving DecidableEq, Repr

structure UploadedFileDB where
  id : String
  path : String
  mimeType : String
  processed : Bool
deriving DecidableEq, Repr

structure DB where
  files : List UploadedFileDB
  teachers : List Teacher
  timetables : List TimetableRec
  timeblocks : List TimeBlockRow
  nextId : Nat
deriving DecidableEq, Repr

structure ProcessBody where
  fileId : Option String := none
  teacherId : Option String := none
  title : Option String := none
  description : Option String := none
deriving DecidableEq, Repr

structure ProcessResponse where
  status : Nat
  error : Option String := none
  success : Bool := false
deriving DecidableEq, Repr

def defaultTeacherEmail : String := "teacher@example.com"

/-- The `if (teacherId) teacher = findUnique(...)` lookup: only a truthy
teacher id is looked up. -/

def lookupTeacher (db : DB) (teacherId : Option String) : Option Teacher :=
  match teacherId with
  | some tid => if tid = "" then none else db.teachers.find? fun t => t.id = tid
  | none => none

/-- The teacher resolution of the process route: look the requested
teacher up when the id is truthy, and otherwise upsert the default
teacher by email. -/

def resolveTeacher (db : DB) (teacherId : Option String) : DB × Teacher :=
  match lookupTeacher db teacherId with
  | some t => (db, t)
  | none =>
    match db.teachers.find? (fun t => t.email = defaultTeacherEmail) with
    | some t => (db, t)
    | none =>
      let t : Teacher :=
        { id := "teacher" ++ toString db.nextId,
          name := "Default Teacher", email := defaultTeacherEmail }
      ({ db with teachers := db.teachers ++ [t], nextId := db.nextId + 1 }, t)

/-- The timeblock row created for one extracted block. -/

def rowOf (timetableId : String) (b : TimeBlock) : TimeBlockRow :=
  { title := b.title, description := b.description, startTime := b.startTime,
    endTime := b.endTime, dayOfWeek := b.dayOfWeek, duration := b.duration,
    color := b.color, timetableId := timetableId }

def POST_process (extract : String → String → Except Unit ExtractedData)
    (db : DB) (body : ProcessBody) : DB × ProcessResponse :=
  if (match body.fileId with | none => true | some s => s = "") then
    (db, { status := 400, error := some "File ID is required" })
  else
    let fileId := body.fileId.getD ""
    match db.files.find? (fun f => f.id = fileId) with
    | none => (db, { status := 404, error := some "File not found" })
    | some uploadedFile =>
      if uploadedFile.processed then
        (db, { status := 400, error := some "File already processed" })
      else
        match extract uploadedFile.path uploadedFile.mimeType with
        | Except.error _ =>
          (db, { status := 500, error := some "Failed to process timetable" })
        | Except.ok extractedData =>
          let p := resolveTeacher db body.teacherId
          let timetable : TimetableRec :=
            { id := "timetable" ++ toString p.1.nextId,
              title := jsGet body.title "Extracted Timetable",
              description := jsGet body.description
                "Timetable extracted from uploaded file",
              teacherId := p.2.id }
          let rows := extractedData.timeblocks.map (rowOf timetable.id)
          let db3 : DB := { p.1 with
            timetables := p.1.timetables ++ [timetable],
            timeblocks := p.1.timeblocks ++ rows,
            nextId := p.1.nextId + 1 }
          let db4 : DB := { db3 with
            files := db3.files.map fun f =>
              if f.id = fileId then { f with processed := true } else f }
          (db4, { status := 200, success := true })

/-- C6 witness: the theorem applied to a one-file database, in both the
already-processed and the fresh-file situation. -/

def processedFileDB : DB :=
  { files := [{ id := "f1", path := "p", mimeType := "image/png", processed := true }],
    teachers := [], timetables := [], timeblocks := [], nextId := 0 }

def freshFileDB : DB :=
  { files := [{ id := "f1", path := "p", mimeType := "image/png", processed := false }],
    teachers := [], timetables := [], timeblocks := [], nextId := 0 }

/-! ### Theorems settling the claims -/

theorem lexLe_total (a b : List Char) : (lexLe a b || lexLe b a) = true := by
  induction a generalizing b with
  | nil => simp [lexLe]
  | cons c cs ih =>
    cases b with
    | nil => simp [lexLe]
    | cons d ds =>
      by_cases h1 : c < d
      · simp [lexLe, h1]
      · by_cases h2 : d < c
        · simp [lexLe, h1, h2]
        · simpa [lexLe, h1, h2] using ih ds

theorem lexLe_trans {a b c : List Char} (h1 : lexLe a b = true)
    (h2 : lexLe b c = true) : lexLe a c = true := by
  induction a generalizing b c with
  | nil => simp [lexLe]
  | cons x xs ih =>
    cases b with
    | nil => simp [lexLe] at h1
    | cons y ys =>
      cases c with
      | nil => simp [lexLe] at h2
      | cons z zs =>
        simp only [lexLe] at h1 h2 ⊢
        have hxy : x < y ∨ (¬ x < y ∧ ¬ y < x) := by
          by_cases hx : x < y
          · exact Or.inl hx
          · by_cases hy : y < x
            · simp [hx, hy] at h1
            · exact Or.inr ⟨hx, hy⟩
        have hyz : y < z ∨ (¬ y < z ∧ ¬ z < y) := by
          by_cases hx : y < z
          · exact Or.inl hx
          · by_cases hy : z < y
            · simp [hx, hy] at h2
            · exact Or.inr ⟨hx, hy⟩
        rcases hxy with hxy | ⟨hxy1, hxy2⟩
        · rcases hyz with hyz | ⟨hyz1, hyz2⟩
          · have : x < z := lt_trans hxy hyz
            simp [this]
          · have hyz : y = z := le_antisymm (not_lt.mp hyz2) (not_lt.mp hyz1)
            simp [hyz ▸ hxy]
        · have hxyeq : x = y := le_antisymm (not_lt.mp hxy2) (not_lt.mp hxy1)
          rcases hyz with hyz | ⟨hyz1, hyz2⟩
          · simp [hxyeq ▸ hyz]
          · have hyzeq : y = z := le_antisymm (not_lt.mp hyz2) (not_lt.mp hyz1)
            subst hxyeq; subst hyzeq
            simp [hxy1, hxy2] at h1 h2 ⊢
            exact ih h1 h2

theorem tbLe_total (a b : TimeBlock) : (tbLe a b || tbLe b a) = true := by
  simp only [tbLe, Bool.or_eq_true, Bool.and_eq_true, decide_eq_true_eq]
  rcases lt_trichotomy (getDayOrder a.dayOfWeek) (getDayOrder b.dayOfWeek) with h | h | h
  · tauto
  · have := lexLe_total a.startTime.toList b.startTime.toList
    simp only [Bool.or_eq_true] at this
    tauto
  · tauto

theorem tbLe_trans (a b c : TimeBlock) (h1 : tbLe a b = true)
    (h2 : tbLe b c = true) : tbLe a c = true := by
  simp only [tbLe, Bool.or_eq_true, Bool.and_eq_true, decide_eq_true_eq] at h1 h2 ⊢
  rcases h1 with h1 | ⟨h1e, h1l⟩ <;> rcases h2 with h2 | ⟨h2e, h2l⟩
  · exact Or.inl (lt_trans h1 h2)
  · exact Or.inl (h2e ▸ h1)
  · exact Or.inl (h1e ▸ h2)
  · exact Or.inr ⟨h1e.trans h2e, lexLe_trans h1l h2l⟩

/-- C4 helper: for a day present in the week list, getDayOrder is its
index in that list. -/
theorem getDayOrder_eq_indexOf {d : String} (h : d ∈ days7) :
    getDayOrder d = (days7.indexOf d : Int) := by
  have hlt : days7.indexOf d < days7.length := List.indexOf_lt_length.mpr h
  simp only [getDayOrder]
  rw [if_neg (by omega)]

/-- C4: For every list of timeblocks whose day labels are genuine weekdays,
sortTimeblocksByDayAndTime returns a permutation of the input (so every
block, with its dayOfWeek and startTime strings, round-trips unchanged),
ordered by position of dayOfWeek in the Monday..Sunday sequence and then
lexicographically by the startTime string. -/
theorem sortTimeblocksByDayAndTime_spec (l : List TimeBlock)
    (hdays : ∀ b ∈ l, b.dayOfWeek ∈ days7) :
    (sortTimeblocksByDayAndTime l).Perm l ∧
    ((sortTimeblocksByDayAndTime l).map
        (fun b => (b.dayOfWeek, b.startTime))).Perm
      (l.map (fun b => (b.dayOfWeek, b.startTime))) ∧
    (sortTimeblocksByDayAndTime l).Pairwise (fun a b =>
      days7.indexOf a.dayOfWeek < days7.indexOf b.dayOfWeek ∨
        (days7.indexOf a.dayOfWeek = days7.indexOf b.dayOfWeek ∧
          lexLe a.startTime.toList b.startTime.toList = true)) := by
  have hperm : (sortTimeblocksByDayAndTime l).Perm l :=
    List.mergeSort_perm l tbLe
  refine ⟨hperm, hperm.map _, ?_⟩
  have hsorted := List.sorted_mergeSort
    (fun a b c h1 h2 => tbLe_trans a b c h1 h2) tbLe_total l
  refine List.Pairwise.imp_of_mem ?_ hsorted
  intro a b ha hb hab
  have ha' : a ∈ l := hperm.mem_iff.mp ha
  have hb' : b ∈ l := hperm.mem_iff.mp hb
  have hda := getDayOrder_eq_indexOf (hdays a ha')
  have hdb := getDayOrder_eq_indexOf (hdays b hb')
  simp only [tbLe, Bool.or_eq_true, Bool.and_eq_true, decide_eq_true_eq,
    hda, hdb] at hab
  rcases hab with h | ⟨he, hl⟩
  · exact Or.inl (by exact_mod_cast h)
  · exact Or.inr ⟨by exact_mod_cast he, hl⟩

/-- C4 witness: the theorem applied to a concrete two-block list. -/
theorem sortTimeblocksByDayAndTime_spec_witness :
    (∀ b ∈ [({ title := "Maths", startTime := "09:00", endTime := "10:00",
               dayOfWeek := "Tuesday" } : TimeBlock),
            ({ title := "Art", startTime := "08:00", endTime := "09:00",
               dayOfWeek := "Monday" } : TimeBlock)], b.dayOfWeek ∈ days7) ∧
    (sortTimeblocksByDayAndTime
      [({ title := "Maths", startTime := "09:00", endTime := "10:00",
          dayOfWeek := "Tuesday" } : TimeBlock),
       ({ title := "Art", startTime := "08:00", endTime := "09:00",
          dayOfWeek := "Monday" } : TimeBlock)]).Perm
      [({ title := "Maths", startTime := "09:00", endTime := "10:00",
          dayOfWeek := "Tuesday" } : TimeBlock),
       ({ title := "Art", startTime := "08:00", endTime := "09:00",
          dayOfWeek := "Monday" } : TimeBlock)] :=
  ⟨by decide, (sortTimeblocksByDayAndTime_spec _ (by decide)).1⟩

theorem groupGo_join (ws : List OCRWord) (cl : List String) (y : Int)
    (ls : List (List String)) :
    (groupGo ws cl y ls).flatten = ls.flatten ++ cl ++ ws.map OCRWord.text := by
  induction ws generalizing cl y ls with
  | nil =>
    by_cases h : cl.isEmpty
    · simp [groupGo, h, List.isEmpty_iff.mp h]
    · simp [groupGo, h]
  | cons w rest ih =>
    simp only [groupGo]
    by_cases h1 : (w.bbox.y0 - y).natAbs > 20
    · by_cases h2 : cl.isEmpty
      · simp [h1, h2, ih, List.isEmpty_iff.mp h2]
      · simp [h1, h2, ih]
    · simp [h1, ih]

theorem groupGo_ne_nil (ws : List OCRWord) (cl : List String) (y : Int)
    (ls : List (List String)) (h : cl ≠ [] ∨ ws ≠ []) :
    groupGo ws cl y ls ≠ [] := by
  induction ws generalizing cl y ls with
  | nil =>
    rcases h with h | h
    · simp [groupGo, List.isEmpty_iff, h]
    · simp at h
  | cons w rest ih =>
    simp only [groupGo]
    by_cases h1 : (w.bbox.y0 - y).natAbs > 20
    · by_cases h2 : cl.isEmpty
      · simp only [h1, if_true, h2, if_true]
        exact ih _ _ _ (Or.inl (by simp))
      · simp only [h1, if_true, h2, if_false]
        exact ih _ _ _ (Or.inl (by simp))
    · simp only [h1, if_false]
      exact ih _ _ _ (Or.inl (by simp))

theorem groupGo_no_empty_line (ws : List OCRWord) (cl : List String) (y : Int)
    (ls : List (List String)) (hls : ∀ l ∈ ls, l ≠ []) :
    ∀ l ∈ groupGo ws cl y ls, l ≠ [] := by
  induction ws generalizing cl y ls with
  | nil =>
    by_cases h : cl.isEmpty
    · simpa [groupGo, h] using hls
    · simp only [groupGo, h, if_false]
      intro l hl
      rcases List.mem_append.mp hl with hl | hl
      · exact hls l hl
      · simp only [List.mem_singleton] at hl
        subst hl
        exact fun hc => h (by simp [hc])
  | cons w rest ih =>
    simp only [groupGo]
    by_cases h1 : (w.bbox.y0 - y).natAbs > 20
    · by_cases h2 : cl.isEmpty
      · simp only [h1, if_true, h2, if_true]
        exact ih _ _ _ hls
      · simp only [h1, if_true, h2, if_false]
        refine ih _ _ _ ?_
        intro l hl
        rcases List.mem_append.mp hl with hl | hl
        · exact hls l hl
        · simp only [List.mem_singleton] at hl
          subst hl
          exact fun hc => h2 (by simp [hc])
    · simp only [h1, if_false]
      exact ih _ _ _ hls

/-- C9: groupWordsByLines partitions the input words: it is empty exactly
when the input is empty, the concatenation of its lines is exactly the
texts of the words sorted (stably) by y0 — hence a permutation of the
input texts — and no returned line is empty. -/
theorem groupWordsByLines_partition (ws : List OCRWord) :
    (groupWordsByLines ws = [] ↔ ws = []) ∧
    (groupWordsByLines ws).flatten = (ws.mergeSort wordLeY).map OCRWord.text ∧
    ((groupWordsByLines ws).flatten).Perm (ws.map OCRWord.text) ∧
    ∀ l ∈ groupWordsByLines ws, l ≠ [] := by
  have hperm := List.mergeSort_perm ws wordLeY
  rcases h : ws.mergeSort wordLeY with _ | ⟨w0, rest⟩
  · rw [h] at hperm
    have hws : ws = [] := (List.Perm.nil_eq hperm).symm
    have hres : groupWordsByLines ws = [] := by
      unfold groupWordsByLines
      rw [h]
    subst hws
    simp [hres, h]
  · rw [h] at hperm
    have hws : ws ≠ [] := by
      intro hc
      rw [hc] at hperm
      exact absurd hperm.eq_nil (by simp)
    have hres : groupWordsByLines ws = groupGo (w0 :: rest) [] w0.bbox.y0 [] := by
      unfold groupWordsByLines
      rw [h]
    have hjoin : (groupWordsByLines ws).flatten = (w0 :: rest).map OCRWord.text := by
      rw [hres]
      simpa using groupGo_join (w0 :: rest) [] w0.bbox.y0 []
    refine ⟨⟨fun hc => ?_, fun hc => absurd hc hws⟩, ?_, ?_, ?_⟩
    · rw [hres] at hc
      exact absurd hc (groupGo_ne_nil _ _ _ _ (Or.inr (by simp)))
    · rw [hjoin]
    · rw [hjoin]
      exact hperm.map _
    · rw [hres]
      exact groupGo_no_empty_line _ _ _ _ (by simp)

/-- C10: calculateDuration always returns a strictly positive number; when
both normalized strings parse to same-day timestamps a whole number of
minutes apart it returns that positive difference, and in every other
case — either timestamp unparseable, or a non-positive difference — it
returns 60. -/
theorem calculateDuration_spec (pt : String → Option Int) (a b : String) :
    (0 < calculateDuration pt a b) ∧
    (∀ s e d : Int, pt (normalizeTime a) = some s → pt (normalizeTime b) = some e →
      e - s = 60000 * d → calculateDuration pt a b = if 0 < d then d else 60) ∧
    ((pt (normalizeTime a) = none ∨ pt (normalizeTime b) = none) →
      calculateDuration pt a b = 60) := by
  refine ⟨?_, ?_, ?_⟩
  · unfold calculateDuration
    match pt (normalizeTime a), pt (normalizeTime b) with
    | some s, some e =>
      simp only
      split
      · assumption
      · norm_num
    | some _, none => norm_num
    | none, some _ => norm_num
    | none, none => norm_num
  · intro s e d hs he hd
    unfold calculateDuration
    rw [hs, he]
    have hround : jsRoundToMinutes (e - s) = d := by
      rw [hd]
      unfold jsRoundToMinutes
      omega
    simp only [hround]
  · intro h
    unfold calculateDuration
    rcases h with h | h <;> rw [h] <;> cases hx : pt (normalizeTime b) <;>
      cases hy : pt (normalizeTime a) <;> simp_all

/-- C10 witness: 09:00 to 10:30 is 90 minutes; an unparseable pair gives 60. -/
theorem calculateDuration_spec_witness :
    ((fun s => if s = "09:00" then some 0 else
        if s = "10:30" then some 5400000 else none) (normalizeTime "09:00")
        = some 0) ∧
    ((fun s => if s = "09:00" then some 0 else
        if s = "10:30" then some 5400000 else none) (normalizeTime "10:30")
        = some 5400000) ∧
    calculateDuration
      (fun s => if s = "09:00" then some 0 else
        if s = "10:30" then some 5400000 else none) "09:00" "10:30" = 90 := by
  have h1 : normalizeTime "09:00" = "09:00" := by decide
  have h2 : normalizeTime "10:30" = "10:30" := by decide
  refine ⟨by rw [h1]; decide, by rw [h2]; decide, ?_⟩
  have := (calculateDuration_spec
    (fun s => if s = "09:00" then some 0 else
      if s = "10:30" then some 5400000 else none) "09:00" "10:30").2.1
    0 5400000 90 (by rw [h1]; decide) (by rw [h2]; decide) (by norm_num)
  simpa using this

/-- C7: once the knowledge base is initialized (non-empty), neither the
enhancement step run while processing an upload, nor the response
normalization that invokes it, nor a knowledge-base search modifies it. -/
theorem knowledgeBase_readonly_after_init (kb : KB) (tbs : List TimeBlock)
    (q : String) (lim : Nat) (h : kb ≠ []) :
    (getEnhancedTimeblocks kb tbs).1 = kb ∧
    (searchKnowledgeBase kb q lim).1 = kb ∧
    (∀ parse pt response, (parseJSONResponse_v2 parse pt kb response).1 = kb) := by
  have henh : ∀ tbs2, (getEnhancedTimeblocks kb tbs2).1 = kb := by
    intro tbs2
    unfold getEnhancedTimeblocks
    simp [List.length_eq_zero, h]
  refine ⟨henh tbs, rfl, ?_⟩
  intro parse pt response
  simp only [parseJSONResponse_v2]
  cases hq : parse (cleanResponse response) with
  | none => rfl
  | some parsed =>
    obtain ⟨otbs⟩ := parsed
    cases otbs with
    | none => rfl
    | some tbs2 => exact henh _

/-- C7 witness: the theorem applied to a concrete initialized knowledge
base. -/
theorem knowledgeBase_readonly_after_init_witness :
    ([("maths", [])] : KB) ≠ [] ∧
    (getEnhancedTimeblocks [("maths", [])] []).1 = [("maths", [])] :=
  ⟨by decide, (knowledgeBase_readonly_after_init [("maths", [])] [] "" 10
    (by decide)).1⟩

/-- C8: getEnhancedTimeblocks returns one output block per input block, in
order; each output equals its input with keywords, subject and
activityType overwritten by the keyword classifiers and every other field
unchanged. -/
theorem getEnhancedTimeblocks_frame (kb : KB) (tbs : List TimeBlock) :
    ((getEnhancedTimeblocks kb tbs).2).length = tbs.length ∧
    ∀ i (hi : i < tbs.length) (hj : i < ((getEnhancedTimeblocks kb tbs).2).length),
      (((getEnhancedTimeblocks kb tbs).2).get ⟨i, hj⟩).id = (tbs.get ⟨i, hi⟩).id ∧
      (((getEnhancedTimeblocks kb tbs).2).get ⟨i, hj⟩).title = (tbs.get ⟨i, hi⟩).title ∧
      (((getEnhancedTimeblocks kb tbs).2).get ⟨i, hj⟩).description
        = (tbs.get ⟨i, hi⟩).description ∧
      (((getEnhancedTimeblocks kb tbs).2).get ⟨i, hj⟩).startTime
        = (tbs.get ⟨i, hi⟩).startTime ∧
      (((getEnhancedTimeblocks kb tbs).2).get ⟨i, hj⟩).endTime
        = (tbs.get ⟨i, hi⟩).endTime ∧
      (((getEnhancedTimeblocks kb tbs).2).get ⟨i, hj⟩).dayOfWeek
        = (tbs.get ⟨i, hi⟩).dayOfWeek ∧
      (((getEnhancedTimeblocks kb tbs).2).get ⟨i, hj⟩).duration
        = (tbs.get ⟨i, hi⟩).duration ∧
      (((getEnhancedTimeblocks kb tbs).2).get ⟨i, hj⟩).color
        = (tbs.get ⟨i, hi⟩).color ∧
      (((getEnhancedTimeblocks kb tbs).2).get ⟨i, hj⟩).keywords
        = some (extractKeywords (tbs.get ⟨i, hi⟩).title
            (jsGet (tbs.get ⟨i, hi⟩).description "")) ∧
      (((getEnhancedTimeblocks kb tbs).2).get ⟨i, hj⟩).subject
        = some (categorizeSubject (tbs.get ⟨i, hi⟩).title
            (jsGet (tbs.get ⟨i, hi⟩).description "")) ∧
      (((getEnhancedTimeblocks kb tbs).2).get ⟨i, hj⟩).activityType
        = some (categorizeActivityType (tbs.get ⟨i, hi⟩).title
            (jsGet (tbs.get ⟨i, hi⟩).description "")) := by
  have hsnd : (getEnhancedTimeblocks kb tbs).2 = tbs.map enhanceBlock := rfl
  constructor
  · rw [hsnd, List.length_map]
  · intro i hi hj
    have hget : ((getEnhancedTimeblocks kb tbs).2).get ⟨i, hj⟩
        = enhanceBlock (tbs.get ⟨i, hi⟩) := by
      have : ((tbs.map enhanceBlock).get ⟨i, by rw [List.length_map]; exact hi⟩)
          = enhanceBlock (tbs.get ⟨i, hi⟩) := List.get_map enhanceBlock
      simpa [hsnd] using this
    rw [hget]
    simp [enhanceBlock]

/-- C8 witness: the theorem applied at index 0 of a one-block list. -/
theorem getEnhancedTimeblocks_frame_witness :
    (0 < ([({ title := "Maths", startTime := "09:00", endTime := "10:00",
              dayOfWeek := "Monday" } : TimeBlock)]).length) ∧
    (((getEnhancedTimeblocks []
        [({ title := "Maths", startTime := "09:00", endTime := "10:00",
            dayOfWeek := "Monday" } : TimeBlock)]).2).get
        ⟨0, by decide⟩).title = "Maths" :=
  ⟨by decide,
    ((getEnhancedTimeblocks_frame []
      [({ title := "Maths", startTime := "09:00", endTime := "10:00",
          dayOfWeek := "Monday" } : TimeBlock)]).2 0 (by decide) (by decide)).2.1⟩

/-- C2 counterexample: on a response whose extracted JSON fails to parse,
the second parseJSONResponse variant returns an empty timeblock list,
which is not the hardcoded fallback schedule. -/
theorem parseJSONResponse_c2_counterexample :
    (parseJSONResponse_v2 parseFailing ptNone [] malformedResponse).2
      = Except.ok ⟨[]⟩ ∧
    (⟨[]⟩ : ExtractedData) ≠ getFallbackData_v2 := by
  exact ⟨rfl, by decide⟩

/-- C2 (amended): when the cleaned response fails JSON parsing, the first
variant returns the hardcoded fallback schedule while the second variant
returns an empty timeblock list (leaving the knowledge base untouched);
neither raises. -/
theorem parseJSONResponse_parse_failure (parse : String → Option ParsedResponse)
    (pt : String → Option Int) (kb : KB) (response : String)
    (h : parse (cleanResponse response) = none) :
    parseJSONResponse_v1 parse pt response = Except.ok getFallbackData_v1 ∧
    (parseJSONResponse_v2 parse pt kb response).2 = Except.ok ⟨[]⟩ ∧
    (parseJSONResponse_v2 parse pt kb response).1 = kb := by
  refine ⟨?_, ?_, ?_⟩
  · simp only [parseJSONResponse_v1]
    split
    · rfl
    · rw [h]
  · simp only [parseJSONResponse_v2]
    rw [h]
  · simp only [parseJSONResponse_v2]
    rw [h]

/-- C2 witness: the amended theorem applied to the concrete malformed
response. -/
theorem parseJSONResponse_parse_failure_witness :
    parseFailing (cleanResponse malformedResponse) = none ∧
    parseJSONResponse_v1 parseFailing ptNone malformedResponse
      = Except.ok getFallbackData_v1 :=
  ⟨rfl, (parseJSONResponse_parse_failure parseFailing ptNone [] malformedResponse
    rfl).1⟩

/-- C3 counterexample: a response that parses to an empty timeblocks
array coerces to no blocks at all, yet the output of the first variant is the
non-empty conditional standard block list — blocks that were not coerced
from the parsed input. -/
theorem parseJSONResponse_c3_counterexample :
    coerceAll_v1 ptNone [] = [] ∧
    parseJSONResponse_v1 parseEmptyOk ptNone emptyTimeblocksResponse
      = Except.ok ⟨generateConditionalStandardBlocks []⟩ ∧
    generateConditionalStandardBlocks [] ≠ [] := by
  exact ⟨rfl, rfl, by decide⟩

/-- C3 (amended): on a successfully parsed response the normalizer
returns the coerced flattening of the parsed timeblocks — titles from
title/subject/activity with indexed defaults, dashed time ranges split,
days from dayOfWeek/day defaulting to Monday, nested arrays flattened —
followed by appended hardcoded standard blocks: the non-overlapping ones
in the first variant, the full 26-block list (with every block
RAG-enhanced) in the second. -/
theorem parseJSONResponse_appends_standard_blocks
    (parse : String → Option ParsedResponse) (pt : String → Option Int)
    (kb : KB) (response : String) (tbs : List ParsedTimeblock)
    (hp : parse (cleanResponse response) = some ⟨some tbs⟩)
    (h1 : jsStartsWith (cleanResponse response) "\x7b" = true)
    (h2 : jsIncludes (cleanResponse response) "timeblocks" = true) :
    parseJSONResponse_v1 parse pt response
      = Except.ok ⟨coerceAll_v1 pt tbs ++
          generateConditionalStandardBlocks (coerceAll_v1 pt tbs)⟩ ∧
    (parseJSONResponse_v2 parse pt kb response).2
      = Except.ok ⟨(coerceAll_v2 pt tbs ++ generateStandardBlocks).map
          enhanceBlock⟩ ∧
    coerceAll_v2 pt tbs = tbs.enum.flatMap (fun q => coerceBlock_v2 pt q.1 q.2) := by
  refine ⟨?_, ?_, rfl⟩
  · have hb : (!(jsStartsWith (cleanResponse response) "\x7b") ||
        !(jsIncludes (cleanResponse response) "timeblocks")) = false := by
      rw [h1, h2]
      rfl
    simp only [parseJSONResponse_v1]
    rw [hb, if_neg (by simp), hp]
  · simp only [parseJSONResponse_v2]
    rw [hp]
    rfl

/-- C3 witness: the amended theorem applied to the concrete
empty-timeblocks response. -/
theorem parseJSONResponse_appends_standard_blocks_witness :
    parseEmptyOk (cleanResponse emptyTimeblocksResponse)
      = some ⟨some []⟩ ∧
    parseJSONResponse_v1 parseEmptyOk ptNone emptyTimeblocksResponse
      = Except.ok ⟨coerceAll_v1 ptNone [] ++
          generateConditionalStandardBlocks (coerceAll_v1 ptNone [])⟩ :=
  ⟨rfl, (parseJSONResponse_appends_standard_blocks parseEmptyOk ptNone []
    emptyTimeblocksResponse [] rfl (by decide) (by decide)).1⟩

/-- C1: every extraction variant tries its providers in the fixed source
order (OpenAI, Claude, Gemini — or Claude, Gemini in the variant without
OpenAI), returns the first success having invoked no later provider (the
invocation count equals the position of the first success, whatever the
later outcomes would be), and returns its hardcoded fallback schedule,
having invoked all providers, when every call fails. -/
theorem extractTimetable_provider_order :
    providerNames_v1 = ["OpenAI", "Claude", "Gemini"] ∧
    providerNames_v2 = ["Claude", "Gemini"] ∧
    providerNames_api = ["OpenAI", "Claude", "Gemini"] ∧
    (∀ r o2 o3, extractTimetableWithLLM_v1 (some r) o2 o3 = (r, 1)) ∧
    (∀ r o3, extractTimetableWithLLM_v1 none (some r) o3 = (r, 2)) ∧
    (∀ r, extractTimetableWithLLM_v1 none none (some r) = (r, 3)) ∧
    extractTimetableWithLLM_v1 none none none = (getFallbackData_v1, 3) ∧
    (∀ r o2, extractTimetableWithLLM_v2 (some r) o2 = (r, 1)) ∧
    (∀ r, extractTimetableWithLLM_v2 none (some r) = (r, 2)) ∧
    extractTimetableWithLLM_v2 none none = (getFallbackData_v2, 2) ∧
    (∀ r o2 o3, extractTimetableWithAI (some r) o2 o3 = (r, 1)) ∧
    (∀ r o3, extractTimetableWithAI none (some r) o3 = (r, 2)) ∧
    (∀ r, extractTimetableWithAI none none (some r) = (r, 3)) ∧
    extractTimetableWithAI none none none = (getFallbackData_api, 3) := by
  refine ⟨rfl, rfl, rfl, ?_, ?_, ?_, rfl, ?_, ?_, rfl, ?_, ?_, ?_, rfl⟩ <;>
    intros <;> rfl

/-- C5: the upload route answers 400 and performs no write and no record
creation when no file is present or when the MIME type is outside the
five-entry whitelist; a whitelisted file is written to disk and recorded
with its metadata and processed set to false. -/
theorem POST_upload_mime_whitelist (ts : Int) (rand : String)
    (file : Option FileData) :
    (file = none →
      (POST_upload ts rand file).1.status = 400 ∧
      (POST_upload ts rand file).2.wroteFile = none ∧
      (POST_upload ts rand file).2.createdRecord = none) ∧
    (∀ f, file = some f → f.mimeType ∉ allowedTypes →
      (POST_upload ts rand file).1.status = 400 ∧
      (POST_upload ts rand file).2.wroteFile = none ∧
      (POST_upload ts rand file).2.createdRecord = none) ∧
    (∀ f, file = some f → f.mimeType ∈ allowedTypes →
      (POST_upload ts rand file).1.status = 200 ∧
      ((POST_upload ts rand file).2.wroteFile).isSome = true ∧
      ∃ rec, (POST_upload ts rand file).2.createdRecord = some rec ∧
        rec.originalName = f.name ∧ rec.mimeType = f.mimeType ∧
        rec.size = f.size ∧ rec.processed = false) := by
  refine ⟨?_, ?_, ?_⟩
  · intro h
    subst h
    exact ⟨rfl, rfl, rfl⟩
  · intro f h hmem
    subst h
    simp [POST_upload, hmem]
  · intro f h hmem
    subst h
    simp [POST_upload, hmem]

/-- C5 witness: the theorem applied to a whitelisted png upload and a
rejected html upload. -/
theorem POST_upload_mime_whitelist_witness :
    ("image/png" ∈ allowedTypes) ∧ ("text/html" ∉ allowedTypes) ∧
    (POST_upload 17 "abc"
      (some { name := "t.png", mimeType := "image/png", size := 10 })).1.status
      = 200 ∧
    (POST_upload 17 "abc"
      (some { name := "t.html", mimeType := "text/html", size := 10 })).1.status
      = 400 :=
  ⟨by decide, by decide,
    ((POST_upload_mime_whitelist 17 "abc"
      (some { name := "t.png", mimeType := "image/png", size := 10 })).2.2
      _ rfl (by decide)).1,
    ((POST_upload_mime_whitelist 17 "abc"
      (some { name := "t.html", mimeType := "text/html", size := 10 })).2.1
      _ rfl (by decide)).1⟩

/-- resolveTeacher touches only the teachers table and the id counter. -/
theorem resolveTeacher_frame (db : DB) (tid : Option String) :
    (resolveTeacher db tid).1.files = db.files ∧
    (resolveTeacher db tid).1.timetables = db.timetables ∧
    (resolveTeacher db tid).1.timeblocks = db.timeblocks := by
  unfold resolveTeacher
  cases hl : lookupTeacher db tid with
  | some t => exact ⟨rfl, rfl, rfl⟩
  | none =>
    cases hd : db.teachers.find? (fun t => t.email = defaultTeacherEmail) with
    | some t => exact ⟨rfl, rfl, rfl⟩
    | none => exact ⟨rfl, rfl, rfl⟩

/-- C6: a process request for a file already marked processed gets a 400
response and leaves the database unchanged; a successful run answers 200
having appended exactly one timetable, appended the timeblock rows of the
extracted blocks, and set the processed flag of the file — so a file is never
processed twice. -/
theorem POST_process_no_reprocess
    (extract : String → String → Except Unit ExtractedData) (db : DB)
    (body : ProcessBody) (fid : String) (uf : UploadedFileDB)
    (hfid : body.fileId = some fid) (hne : fid ≠ "")
    (hfind : db.files.find? (fun f => f.id = fid) = some uf) :
    (uf.processed = true →
      POST_process extract db body
        = (db, { status := 400, error := some "File already processed" })) ∧
    (uf.processed = false → ∀ data, extract uf.path uf.mimeType = Except.ok data →
      (POST_process extract db body).2.status = 200 ∧
      (∃ t : TimetableRec,
        (POST_process extract db body).1.timetables = db.timetables ++ [t] ∧
        (POST_process extract db body).1.timeblocks
          = db.timeblocks ++ data.timeblocks.map (rowOf t.id)) ∧
      (POST_process extract db body).1.files
        = db.files.map fun f =>
            if f.id = fid then { f with processed := true } else f) := by
  have hbody : (match body.fileId with | none => true | some s => decide (s = ""))
      = false := by
    rw [hfid]
    simp [hne]
  have hgetd : body.fileId.getD "" = fid := by rw [hfid]; rfl
  constructor
  · intro hproc
    simp only [POST_process, hbody, Bool.false_eq_true, if_false, hgetd, hfind,
      hproc, if_true]
  · intro hproc data hex
    have hframe := resolveTeacher_frame db body.teacherId
    simp only [POST_process, hbody, Bool.false_eq_true, if_false, hgetd, hfind,
      hproc, if_false, hex]
    refine ⟨trivial,
      ⟨{ id := "timetable" ++ toString (resolveTeacher db body.teacherId).1.nextId,
         title := jsGet body.title "Extracted Timetable",
         description := jsGet body.description "Timetable extracted from uploaded file",
         teacherId := (resolveTeacher db body.teacherId).2.id }, ?_, ?_⟩, ?_⟩
    · rw [hframe.2.1]
    · rw [hframe.2.2]
    · rw [hframe.1]

theorem POST_process_no_reprocess_witness :
    (POST_process (fun _ _ => Except.ok ⟨[]⟩) processedFileDB { fileId := some "f1" }
      = (processedFileDB, { status := 400, error := some "File already processed" })) ∧
    (POST_process (fun _ _ => Except.ok ⟨[]⟩) freshFileDB
      { fileId := some "f1" }).2.status = 200 :=
  ⟨(POST_process_no_reprocess (fun _ _ => Except.ok ⟨[]⟩) processedFileDB _ "f1"
      { id := "f1", path := "p", mimeType := "image/png", processed := true }
      rfl (by decide) (by decide)).1 rfl,
    ((POST_process_no_reprocess (fun _ _ => Except.ok ⟨[]⟩) freshFileDB _ "f1"
      { id := "f1", path := "p", mimeType := "image/png", processed := false }
      rfl (by decide) (by decide)).2 rfl ⟨[]⟩ rfl).1⟩

end TTM
